import Mathlib

/-!
Wallet.go of zksync2-go: a shallow embedding.

The file `Wallet.go` is sequential Go code that talks to three collaborators behind
interfaces: the `Provider` (RPC), the `EthSigner` and the ERC20 `abi.ABI`.
The embedding passes two pieces of state explicitly:

* the wallet itself (`w.bcs` is the only field the code ever writes), and
* a log of the calls made so far (`List Event`), oldest first: every call to a
  collaborator, and every call of the wallet's own `estimateAndSend`, each with
  its arguments.

A collaborator answers as a function of the log at the moment it is called, so
the same method may answer differently on a later call.  A Go result pair
`(v, err)` with a pointer `v` is a pair `Option _ × Option Error`: Go lets an
implementation return any of the four combinations.
-/

namespace Zksync2

/-- The type `common.Address` (20 bytes), as the number the bytes spell. -/
abbrev Address := Nat

/-- The type `hexutil.Bytes` / `[]byte`; the nil slice is the empty list. -/
abbrev Bytes := List UInt8

/-- Go `error` values this file sees: errors made by a collaborator, the two
`bind` sentinels, and `fmt.Errorf(format, cause)` with a `%w` verb. -/
inductive Error where
  | collaborator (msg : String)
  | ErrNoChainID
  | ErrNotAuthorized
  | Errorf (format : String) (cause : Error)
  deriving DecidableEq, Repr

/-- Modelled from the spec: `Token` is declared outside Wallet.go. Section 3 gives
the asset descriptor as `{ isNative: bool, layer2Address: Address }`; Wallet.go
reads `L2Address` and calls `IsETH()`. -/
structure Token where
  isNative : Bool
  L2Address : Address
  deriving DecidableEq, Repr

/-- Modelled from the spec: `Token.IsETH` is declared outside Wallet.go; it tells
the native asset from a token contract. -/
def Token.IsETH (t : Token) : Bool := t.isNative

/-- Modelled from the spec: `CreateETH` is declared outside Wallet.go; it returns
the native asset, whose layer-2 address is a well-known sentinel. The sentinel is
a parameter here. -/
def CreateETH (ETH_ADDRESS : Address) : Token :=
  { isNative := true, L2Address := ETH_ADDRESS }

/-- The type `BlockNumber` of the provider interface (a block tag). -/
abbrev BlockNumber := String

/-- Modelled from the spec: the constant `BlockNumberCommitted` is declared
outside Wallet.go; it is the "committed" block tag. -/
def BlockNumberCommitted : BlockNumber := "committed"

/-- The struct `BridgeContracts`, with the two fields Wallet.go reads. -/
structure BridgeContracts where
  L1EthDefaultBridge : Address
  L1Erc20DefaultBridge : Address
  deriving DecidableEq, Repr

/-- Modelled from the spec: the zkSync `Transaction` built by
`CreateFunctionCallTransaction` is declared outside Wallet.go. It records the
seven arguments of the constructor, in their order; section 3 calls the
relevant part the call plan `{ to, value, data, feeAssetAddress }`. -/
structure Transaction where
  From : Address
  To : Address
  ErgsPrice : Int
  ErgsLimit : Int
  Value : Int
  FeeToken : Address
  Data : Bytes
  deriving DecidableEq, Repr

/-- Modelled from the spec: `CreateFunctionCallTransaction` is declared outside
Wallet.go; it stores its arguments in a `Transaction`. -/
def CreateFunctionCallTransaction (sender to_ : Address) (ergsPrice ergsLimit value : Int)
    (feeToken : Address) (data : Bytes) : Transaction :=
  { From := sender, To := to_, ErgsPrice := ergsPrice, ErgsLimit := ergsLimit,
    Value := value, FeeToken := feeToken, Data := data }

/-- An argument handed to `abi.ABI.Pack` (Go `interface{}`): Wallet.go passes an
address and a `*big.Int`. -/
inductive ABIValue where
  | address (a : Address)
  | int (n : Int)
  deriving DecidableEq, Repr

/-- The go-ethereum type `types.Transaction`, which the wallet never looks into. -/
structure types.Transaction where
  payload : Bytes
  signature : Option Bytes
  deriving DecidableEq, Repr

/-- One call, with its arguments. All but one are calls to a collaborator;
`Println` is the standard output. `estimateAndSend` is the call of the wallet's own
method of that name: its body never reads the nonce, so the record of the call is
the one place where the arguments of line 98 show. `SendRawTransaction` is modelled
from the spec (section 6, the provider's `Submit`): Wallet.go has no call that
emits it. -/
inductive Event where
  | GetBalance (address : Address) (block : BlockNumber) (token : Token)
  | GetTransactionCount (address : Address) (block : BlockNumber)
  | EstimateGas (tx : Transaction)
  | ZksGetBridgeContracts
  | GetDomain
  | SignHash (hash : Bytes)
  | Pack (name : String) (args : List ABIValue)
  | Println (v : Option Int)
  | estimateAndSend (tx : Transaction) (nonce : Option Int)
  | SendRawTransaction (tx : types.Transaction)
  deriving DecidableEq, Repr

/-- The interface `Provider`, restricted to the methods Wallet.go calls. Each
method sees the log of the calls made before it. -/
structure Provider where
  GetBalance : List Event → Address → BlockNumber → Token → Option Int × Option Error
  GetTransactionCount : List Event → Address → BlockNumber → Option Int × Option Error
  EstimateGas : List Event → Transaction → Option Int × Option Error
  ZksGetBridgeContracts : List Event → Option BridgeContracts × Option Error

/-- The struct `Eip712Domain`, with the field Wallet.go reads. -/
structure Eip712Domain where
  ChainId : Option Int
  deriving DecidableEq, Repr

/-- The interface `EthSigner`. `GetAddress` is a stable identity that never
fails (section 4.2), so it is a plain field and leaves no event. -/
structure EthSigner where
  GetAddress : Address
  GetDomain : List Event → Eip712Domain
  SignHash : List Event → Bytes → Bytes × Option Error

/-- The go-ethereum type `abi.ABI`: the encoder is a black box. -/
structure abi.ABI where
  Pack : String → List ABIValue → Bytes × Option Error

/-- The go-ethereum interface `types.Signer`, with the two operations the
transactor uses: `Hash(tx).Bytes()` and `tx.WithSignature(signer, sig)`. -/
structure types.Signer where
  Hash : types.Transaction → Bytes
  WithSignature : types.Transaction → Bytes → Option types.Transaction × Option Error

/-- The go-ethereum struct `bind.TransactOpts`, with the two fields set here. -/
structure bind.TransactOpts where
  From : Address
  Signer : Address → types.Transaction → List Event →
    (Option types.Transaction × Option Error) × List Event

/-- The struct `Wallet`. -/
structure Wallet where
  es : EthSigner
  zp : Provider
  bcs : Option BridgeContracts
  erc20abi : abi.ABI

/-- The method `Wallet.GetBalance` (lines 65-67). -/
def Wallet.GetBalance (ETH_ADDRESS : Address) (w : Wallet) (log : List Event) :
    (Option Int × Option Error) × List Event :=
  (w.zp.GetBalance log w.es.GetAddress BlockNumberCommitted (CreateETH ETH_ADDRESS),
   log ++ [Event.GetBalance w.es.GetAddress BlockNumberCommitted (CreateETH ETH_ADDRESS)])

/-- The method `Wallet.GetNonce` (lines 69-71). -/
def Wallet.GetNonce (w : Wallet) (log : List Event) :
    (Option Int × Option Error) × List Event :=
  (w.zp.GetTransactionCount log w.es.GetAddress BlockNumberCommitted,
   log ++ [Event.GetTransactionCount w.es.GetAddress BlockNumberCommitted])

/-- The method `Wallet.estimateAndSend` (lines 101-113). The call itself is put on
the log with its two arguments (line 101); the body never reads the nonce, whose
only use is in the commented-out line 110. -/
def Wallet.estimateAndSend (w : Wallet) (tx : Transaction) (nonce : Option Int)
    (log : List Event) : (Option types.Transaction × Option Error) × List Event :=
  let log0 := log ++ [Event.estimateAndSend tx nonce]
  let r := w.zp.EstimateGas log0 tx
  let log1 := log0 ++ [Event.EstimateGas tx]
  match r.2 with
  | some err => ((none, some (Error.Errorf "failed to EstimateGas: %w" err)), log1)
  | none =>
    let log2 := log1 ++ [Event.Println r.1]
    let chainId := (w.es.GetDomain log2).ChainId
    let log3 := log2 ++ [Event.GetDomain]
    let log4 := log3 ++ [Event.Println chainId]
    ((none, none), log4)

/-- Lines 74-97 of `Wallet.Transfer`: everything before the final call of line 98.
The result is the pair `(tx, nonce)` that line 98 passes to `estimateAndSend`,
or the error of an early return. `amount` is a non-nil `*big.Int`; `to_` is the
parameter `to`. On the token path lines 93-94 overwrite `to` and `amount` after
line 89 has packed the original ones. -/
def Wallet.Transfer.build (ETH_ADDRESS : Address) (w : Wallet) (to_ : Address) (amount : Int)
    (token : Option Token) (nonce : Option Int) (feeToken : Option Token)
    (log : List Event) : Except Error (Transaction × Option Int) × List Event :=
  let token := match token with
    | none => CreateETH ETH_ADDRESS
    | some t => t
  let feeToken := match feeToken with
    | none => CreateETH ETH_ADDRESS
    | some t => t
  let resolved : Except Error (Option Int) × List Event :=
    match nonce with
    | none =>
      let r := w.GetNonce log
      match r.1.2 with
      | some err => (.error (Error.Errorf "failed to get nonce: %w" err), r.2)
      | none => (.ok r.1.1, r.2)
    | some n => (.ok (some n), log)
  match resolved with
  | (.error e, log1) => (.error e, log1)
  | (.ok nonce, log1) =>
    if !token.IsETH then
      let p := w.erc20abi.Pack "transfer" [ABIValue.address to_, ABIValue.int amount]
      let log2 := log1 ++ [Event.Pack "transfer" [ABIValue.address to_, ABIValue.int amount]]
      match p.2 with
      | some err => (.error (Error.Errorf "failed to pack transfer function: %w" err), log2)
      | none =>
        let data := p.1
        let to_ := token.L2Address
        let amount : Int := 0
        (.ok (CreateFunctionCallTransaction w.es.GetAddress to_ 0 0 amount
                feeToken.L2Address data, nonce), log2)
    else
      (.ok (CreateFunctionCallTransaction w.es.GetAddress to_ 0 0 amount
              feeToken.L2Address [], nonce), log1)

/-- The method `Wallet.Transfer` (lines 73-99): lines 74-97 are `Wallet.Transfer.build`, an
early return gives `(nil, err)`, and line 98 returns what `estimateAndSend`
returns. -/
def Wallet.Transfer (ETH_ADDRESS : Address) (w : Wallet) (to_ : Address) (amount : Int)
    (token : Option Token) (nonce : Option Int) (feeToken : Option Token)
    (log : List Event) : (Option types.Transaction × Option Error) × List Event :=
  match Wallet.Transfer.build ETH_ADDRESS w to_ amount token nonce feeToken log with
  | (.error e, log1) => ((none, some e), log1)
  | (.ok (tx, nonce), log1) => w.estimateAndSend tx nonce log1

/-- The method `Wallet.getBridgeContracts` (lines 115-125). Line 120 stores the provider's
first result in `w.bcs` before line 121 looks at the error. -/
def Wallet.getBridgeContracts (w : Wallet) (log : List Event) :
    (Option BridgeContracts × Option Error) × Wallet × List Event :=
  match w.bcs with
  | some b => ((some b, none), w, log)
  | none =>
    let r := w.zp.ZksGetBridgeContracts log
    let w1 : Wallet := { w with bcs := r.1 }
    let log1 := log ++ [Event.ZksGetBridgeContracts]
    match r.2 with
    | some err => ((none, some err), w1, log1)
    | none => ((w1.bcs, none), w1, log1)

/-- The method `Wallet.newTransactorWithSigner` (lines 127-146). `LatestSignerForChainID`
is go-ethereum's `types.LatestSignerForChainID`, taken as a parameter. The
receiver is not used by the body. -/
def Wallet.newTransactorWithSigner (LatestSignerForChainID : Int → types.Signer)
    (_w : Wallet) (ethSigner : EthSigner) (chainID : Option Int) :
    Option bind.TransactOpts × Option Error :=
  match chainID with
  | none => (none, some Error.ErrNoChainID)
  | some chainID =>
    let keyAddr := ethSigner.GetAddress
    let signer := LatestSignerForChainID chainID
    (some
      { From := keyAddr
        Signer := fun address tx log =>
          if address ≠ keyAddr then ((none, some Error.ErrNotAuthorized), log)
          else
            let r := ethSigner.SignHash log (signer.Hash tx)
            let log1 := log ++ [Event.SignHash (signer.Hash tx)]
            match r.2 with
            | some err => ((none, some err), log1)
            | none => (signer.WithSignature tx r.1, log1) },
     none)

/-- A caller that calls `getBridgeContracts` `k` times in a row on one wallet and
collects the results, oldest first. -/
def Wallet.getBridgeContractsTimes : Nat → Wallet → List Event →
    List (Option BridgeContracts × Option Error) × Wallet × List Event
  | 0, w, log => ([], w, log)
  | k + 1, w, log =>
    let r := w.getBridgeContracts log
    let rest := Wallet.getBridgeContractsTimes k r.2.1 r.2.2
    (r.1 :: rest.1, rest.2)

/-! Reading the log. -/

/-- The events of a log that are provider queries for the transaction count. -/
def Event.isGetTransactionCount : Event → Bool
  | .GetTransactionCount _ _ => true
  | _ => false

/-- The events of a log that are calls of the ABI encoder. -/
def Event.isPack : Event → Bool
  | .Pack _ _ => true
  | _ => false

/-- The events of a log that are gas estimations. -/
def Event.isEstimateGas : Event → Bool
  | .EstimateGas _ => true
  | _ => false

/-- The events of a log that are provider queries for the bridge contracts. -/
def Event.isZksGetBridgeContracts : Event → Bool
  | .ZksGetBridgeContracts => true
  | _ => false

/-- The events of a log in which the signer is asked for its domain or for a
signature. -/
def Event.isSignerCall : Event → Bool
  | .GetDomain => true
  | .SignHash _ => true
  | _ => false

/-- The events of a log that are calls of the wallet's own `estimateAndSend`. -/
def Event.isEstimateAndSend : Event → Bool
  | .estimateAndSend _ _ => true
  | _ => false

/-- The events of a log that are broadcasts of a signed transaction. -/
def Event.isSendRawTransaction : Event → Bool
  | .SendRawTransaction _ => true
  | _ => false

/-! Sample collaborators, for concrete runs. -/

/-- A provider that answers every query without error. -/
def sampleProvider : Provider where
  GetBalance := fun _ _ _ _ => (some 1000, none)
  GetTransactionCount := fun _ _ _ => (some 5, none)
  EstimateGas := fun _ _ => (some 21000, none)
  ZksGetBridgeContracts := fun _ => (some ⟨0x10, 0x20⟩, none)

/-- A provider every query of which fails; the bridge query also hands back a
non-nil result next to its error, and succeeds from the second query on. -/
def failingProvider : Provider where
  GetBalance := fun _ _ _ _ => (none, some (Error.collaborator "rpc down"))
  GetTransactionCount := fun _ _ _ => (none, some (Error.collaborator "rpc down"))
  EstimateGas := fun _ _ => (none, some (Error.collaborator "rpc down"))
  ZksGetBridgeContracts := fun log =>
    if log.any Event.isZksGetBridgeContracts then (some ⟨0x10, 0x20⟩, none)
    else (some ⟨0, 0⟩, some (Error.collaborator "rpc down"))

/-- A signer with address `0x11`. -/
def sampleSigner : EthSigner where
  GetAddress := 0x11
  GetDomain := fun _ => { ChainId := some 270 }
  SignHash := fun _ h => (h, none)

/-- An encoder that puts the method name's length, the address and the amount in
three bytes; it fails on any other argument list. -/
def sampleABI : abi.ABI where
  Pack := fun name args =>
    match args with
    | [ABIValue.address a, ABIValue.int n] =>
      ([UInt8.ofNat name.length, UInt8.ofNat a, UInt8.ofNat n.toNat], none)
    | _ => ([], some (Error.collaborator "abi: bad arguments"))

/-- A wallet over the sample collaborators, with nothing cached. -/
def sampleWallet : Wallet :=
  { es := sampleSigner, zp := sampleProvider, bcs := none, erc20abi := sampleABI }

/-- A wallet whose provider fails, with nothing cached. -/
def failingWallet : Wallet :=
  { es := sampleSigner, zp := failingProvider, bcs := none, erc20abi := sampleABI }

/-- A stand-in for go-ethereum's `types.LatestSignerForChainID`. -/
def sampleLatestSigner (_chainID : Int) : types.Signer where
  Hash := fun tx => tx.payload
  WithSignature := fun tx sig => (some { tx with signature := some sig }, none)

/-! Shared lemmas. -/

/-- A wrapped error is never the error it wraps. -/
theorem Error.Errorf_ne_cause (format : String) (e : Error) : Error.Errorf format e ≠ e := by
  intro h
  have hs := congrArg sizeOf h
  simp at hs

/-- The first component of `estimateAndSend` is never a transaction. -/
theorem estimateAndSend_returns_no_transaction (w : Wallet) (tx : Transaction)
    (nonce : Option Int) (log : List Event) :
    (w.estimateAndSend tx nonce log).1.1 = none := by
  unfold Wallet.estimateAndSend
  cases h : (w.zp.EstimateGas (log ++ [Event.estimateAndSend tx nonce]) tx).2 <;> simp [h]

/-- The log after `estimateAndSend` is the log before, then the record of the call
with its arguments, then the estimation, then whatever else the call did. -/
theorem estimateAndSend_log (w : Wallet) (tx : Transaction) (nonce : Option Int)
    (log : List Event) :
    ∃ rest, (w.estimateAndSend tx nonce log).2
        = log ++ Event.estimateAndSend tx nonce :: Event.EstimateGas tx :: rest ∧
      rest.filter Event.isEstimateGas = [] ∧ rest.filter Event.isPack = [] ∧
      rest.filter Event.isGetTransactionCount = [] ∧
      rest.filter Event.isEstimateAndSend = [] := by
  unfold Wallet.estimateAndSend
  cases h : (w.zp.EstimateGas (log ++ [Event.estimateAndSend tx nonce]) tx).2
  · exact ⟨[Event.Println
        (w.zp.EstimateGas (log ++ [Event.estimateAndSend tx nonce]) tx).1,
      Event.GetDomain,
      Event.Println (w.es.GetDomain
        (log ++ [Event.estimateAndSend tx nonce] ++ [Event.EstimateGas tx] ++
          [Event.Println
            (w.zp.EstimateGas (log ++ [Event.estimateAndSend tx nonce]) tx).1])).ChainId],
      by simp [h], by simp [Event.isEstimateGas], by simp [Event.isPack],
      by simp [Event.isGetTransactionCount], by simp [Event.isEstimateAndSend]⟩
  · exact ⟨[], by simp [h], rfl, rfl, rfl, rfl⟩

/-- The token path of lines 74-97, once the nonce is known and the encoder has
accepted the arguments. -/
theorem build_token_ok (ETH_ADDRESS : Address) (w : Wallet) (to_ : Address)
    (amount : Int) (t : Token) (nonce : Option Int) (feeToken : Option Token)
    (log : List Event)
    (hETH : t.IsETH = false)
    (hpack : (w.erc20abi.Pack "transfer" [ABIValue.address to_, ABIValue.int amount]).2 = none)
    (hnonce : nonce = none →
      (w.zp.GetTransactionCount log w.es.GetAddress BlockNumberCommitted).2 = none) :
    Wallet.Transfer.build ETH_ADDRESS w to_ amount (some t) nonce feeToken log
      = (.ok ({ From := w.es.GetAddress, To := t.L2Address, ErgsPrice := 0, ErgsLimit := 0,
                Value := 0, FeeToken := (feeToken.getD (CreateETH ETH_ADDRESS)).L2Address,
                Data := (w.erc20abi.Pack "transfer"
                  [ABIValue.address to_, ABIValue.int amount]).1 },
              nonce.elim
                (w.zp.GetTransactionCount log w.es.GetAddress BlockNumberCommitted).1 some),
         (nonce.elim
            (log ++ [Event.GetTransactionCount w.es.GetAddress BlockNumberCommitted])
            (fun _ => log)) ++
         [Event.Pack "transfer" [ABIValue.address to_, ABIValue.int amount]]) := by
  cases nonce with
  | some k =>
    cases feeToken <;>
      simp [Wallet.Transfer.build, hETH, hpack, CreateFunctionCallTransaction]
  | none =>
    have h := hnonce rfl
    cases feeToken <;>
      simp [Wallet.Transfer.build, Wallet.GetNonce, h, hETH, hpack,
        CreateFunctionCallTransaction]

/-- The native path of lines 74-97, once the nonce is known. -/
theorem build_native_ok (ETH_ADDRESS : Address) (w : Wallet) (to_ : Address)
    (amount : Int) (token : Option Token) (nonce : Option Int) (feeToken : Option Token)
    (log : List Event)
    (htoken : token = none ∨ ∃ t, token = some t ∧ t.IsETH = true)
    (hnonce : nonce = none →
      (w.zp.GetTransactionCount log w.es.GetAddress BlockNumberCommitted).2 = none) :
    Wallet.Transfer.build ETH_ADDRESS w to_ amount token nonce feeToken log
      = (.ok ({ From := w.es.GetAddress, To := to_, ErgsPrice := 0, ErgsLimit := 0,
                Value := amount, FeeToken := (feeToken.getD (CreateETH ETH_ADDRESS)).L2Address,
                Data := [] },
              nonce.elim
                (w.zp.GetTransactionCount log w.es.GetAddress BlockNumberCommitted).1 some),
         nonce.elim
           (log ++ [Event.GetTransactionCount w.es.GetAddress BlockNumberCommitted])
           (fun _ => log)) := by
  have hnat : (match token with
      | none => CreateETH ETH_ADDRESS
      | some t => t).IsETH = true := by
    rcases htoken with rfl | ⟨t, rfl, ht⟩
    · rfl
    · exact ht
  cases nonce with
  | some k =>
    cases feeToken <;>
      simp [Wallet.Transfer.build, hnat, CreateFunctionCallTransaction]
  | none =>
    have h := hnonce rfl
    cases feeToken <;>
      simp [Wallet.Transfer.build, Wallet.GetNonce, h, hnat, CreateFunctionCallTransaction]

/-- Lines 81-86: with no nonce given, a failing transaction-count query ends
lines 74-97 right after the query. -/
theorem build_nonce_error (ETH_ADDRESS : Address) (w : Wallet) (to_ : Address)
    (amount : Int) (token : Option Token) (feeToken : Option Token) (log : List Event)
    (e : Error)
    (h : (w.zp.GetTransactionCount log w.es.GetAddress BlockNumberCommitted).2 = some e) :
    Wallet.Transfer.build ETH_ADDRESS w to_ amount token none feeToken log
      = (.error (Error.Errorf "failed to get nonce: %w" e),
         log ++ [Event.GetTransactionCount w.es.GetAddress BlockNumberCommitted]) := by
  simp [Wallet.Transfer.build, Wallet.GetNonce, h]

/-- With a nonce given, lines 74-97 add at most the encoder call to the log. -/
theorem build_log_of_nonce (ETH_ADDRESS : Address) (w : Wallet) (to_ : Address)
    (amount : Int) (token : Option Token) (n : Int) (feeToken : Option Token)
    (log : List Event) :
    (Wallet.Transfer.build ETH_ADDRESS w to_ amount token (some n) feeToken log).2 = log ∨
    (Wallet.Transfer.build ETH_ADDRESS w to_ amount token (some n) feeToken log).2
      = log ++ [Event.Pack "transfer" [ABIValue.address to_, ABIValue.int amount]] := by
  unfold Wallet.Transfer.build
  simp only
  split
  · right
    split <;> rfl
  · left
    rfl

/-- Every transaction that lines 74-97 build carries the L2 address of the fee
token, the native asset standing in for an absent one. -/
theorem build_fee_token (ETH_ADDRESS : Address) (w : Wallet) (to_ : Address)
    (amount : Int) (token : Option Token) (nonce : Option Int) (feeToken : Option Token)
    (log : List Event) (tx : Transaction) (n : Option Int) (log1 : List Event)
    (h : Wallet.Transfer.build ETH_ADDRESS w to_ amount token nonce feeToken log
      = (.ok (tx, n), log1)) :
    tx.FeeToken = (feeToken.getD (CreateETH ETH_ADDRESS)).L2Address := by
  unfold Wallet.Transfer.build at h
  simp only at h
  split at h
  · cases h
  · split at h
    · split at h
      · cases h
      · cases h
        cases feeToken <;> rfl
    · cases h
      cases feeToken <;> rfl

/-- The call of line 98. -/
theorem Transfer_of_build_ok (ETH_ADDRESS : Address) (w : Wallet) (to_ : Address)
    (amount : Int) (token : Option Token) (nonce : Option Int) (feeToken : Option Token)
    (log : List Event) (tx : Transaction) (n : Option Int) (log1 : List Event)
    (h : Wallet.Transfer.build ETH_ADDRESS w to_ amount token nonce feeToken log
      = (.ok (tx, n), log1)) :
    Wallet.Transfer ETH_ADDRESS w to_ amount token nonce feeToken log
      = w.estimateAndSend tx n log1 := by
  simp [Wallet.Transfer, h]

/-- An early return of lines 74-97 is the result of `Transfer`. -/
theorem Transfer_of_build_error (ETH_ADDRESS : Address) (w : Wallet) (to_ : Address)
    (amount : Int) (token : Option Token) (nonce : Option Int) (feeToken : Option Token)
    (log : List Event) (e : Error) (log1 : List Event)
    (h : Wallet.Transfer.build ETH_ADDRESS w to_ amount token nonce feeToken log
      = (.error e, log1)) :
    Wallet.Transfer ETH_ADDRESS w to_ amount token nonce feeToken log
      = ((none, some e), log1) := by
  simp [Wallet.Transfer, h]

/-- A failing gas estimation ends `estimateAndSend` right after the query. -/
theorem estimateAndSend_of_estimate_error (w : Wallet) (tx : Transaction)
    (nonce : Option Int) (log : List Event) (e : Error)
    (h : (w.zp.EstimateGas (log ++ [Event.estimateAndSend tx nonce]) tx).2 = some e) :
    w.estimateAndSend tx nonce log
      = ((none, some (Error.Errorf "failed to EstimateGas: %w" e)),
         log ++ [Event.estimateAndSend tx nonce, Event.EstimateGas tx]) := by
  simp [Wallet.estimateAndSend, h]

/-- Lines 115-125 at a provider that answers an error with a nil result: the call
fails with that error, `w.bcs` stays empty, and a second call asks the provider
again and returns what it then answers without error. -/
theorem getBridgeContracts_nil_failure_not_cached (w : Wallet) (log : List Event)
    (e : Error) (hbcs : w.bcs = none)
    (h : w.zp.ZksGetBridgeContracts log = (none, some e)) :
    (w.getBridgeContracts log).1 = (none, some e) ∧
    (w.getBridgeContracts log).2.1.bcs = none ∧
    (w.getBridgeContracts log).2.2 = log ++ [Event.ZksGetBridgeContracts] ∧
    (∀ (log1 : List Event) (b : Option BridgeContracts),
      w.zp.ZksGetBridgeContracts log1 = (b, none) →
      ((w.getBridgeContracts log).2.1.getBridgeContracts log1).1 = (b, none) ∧
      ((w.getBridgeContracts log).2.1.getBridgeContracts log1).2.2
        = log1 ++ [Event.ZksGetBridgeContracts]) := by
  have h1 : w.getBridgeContracts log
      = ((none, some e), { w with bcs := none }, log ++ [Event.ZksGetBridgeContracts]) := by
    simp [Wallet.getBridgeContracts, hbcs, h]
  refine ⟨by rw [h1], by rw [h1], by rw [h1], ?_⟩
  intro log1 b hb
  rw [h1]
  simp [Wallet.getBridgeContracts, hb]

/-! The claims. -/

/-- C1: for a token that is not the native asset and arguments the ABI encoder
accepts, `Transfer` (once the nonce is known) builds the transaction with value 0,
with the token's L2 address as target and with the packing of
`transfer(recipient, amount)` over the original recipient and amount as call data,
and hands exactly that transaction to `estimateAndSend` and to gas estimation. -/
theorem Transfer_token_builds_erc20_call (ETH_ADDRESS : Address) (w : Wallet) (to_ : Address)
    (amount : Int) (t : Token) (nonce : Option Int) (feeToken : Option Token)
    (log : List Event)
    (hETH : t.IsETH = false)
    (hpack : (w.erc20abi.Pack "transfer" [ABIValue.address to_, ABIValue.int amount]).2 = none)
    (hnonce : nonce = none →
      (w.zp.GetTransactionCount log w.es.GetAddress BlockNumberCommitted).2 = none) :
    let tx : Transaction :=
      { From := w.es.GetAddress, To := t.L2Address, ErgsPrice := 0, ErgsLimit := 0, Value := 0,
        FeeToken := (feeToken.getD (CreateETH ETH_ADDRESS)).L2Address,
        Data := (w.erc20abi.Pack "transfer" [ABIValue.address to_, ABIValue.int amount]).1 }
    let n : Option Int :=
      nonce.elim (w.zp.GetTransactionCount log w.es.GetAddress BlockNumberCommitted).1 some
    let log2 : List Event :=
      (nonce.elim
        (log ++ [Event.GetTransactionCount w.es.GetAddress BlockNumberCommitted])
        (fun _ => log)) ++
      [Event.Pack "transfer" [ABIValue.address to_, ABIValue.int amount]]
    Wallet.Transfer.build ETH_ADDRESS w to_ amount (some t) nonce feeToken log
        = (.ok (tx, n), log2) ∧
      Wallet.Transfer ETH_ADDRESS w to_ amount (some t) nonce feeToken log
        = w.estimateAndSend tx n log2 ∧
      (Wallet.Transfer ETH_ADDRESS w to_ amount (some t) nonce feeToken log).2.filter
          Event.isEstimateGas
        = log.filter Event.isEstimateGas ++ [Event.EstimateGas tx] := by
  intro tx n log2
  have hb := build_token_ok ETH_ADDRESS w to_ amount t nonce feeToken log hETH hpack hnonce
  have ht := Transfer_of_build_ok _ _ _ _ _ _ _ _ _ _ _ hb
  refine ⟨hb, ht, ?_⟩
  obtain ⟨rest, hrest, hr, -, -, -⟩ := estimateAndSend_log w tx n log2
  rw [ht, hrest]
  cases nonce <;>
    simp [log2, List.filter_append, List.filter_cons, hr, Event.isEstimateGas]

/-- The witness of C1: the token transfer of the second scenario of section 8. -/
theorem Transfer_token_builds_erc20_call_witness :
    Wallet.Transfer 0 sampleWallet 0xAA 50 (some ⟨false, 0xBB⟩) (some 3) none []
      = sampleWallet.estimateAndSend
          { From := 0x11, To := 0xBB, ErgsPrice := 0, ErgsLimit := 0, Value := 0, FeeToken := 0,
            Data := (sampleABI.Pack "transfer" [ABIValue.address 0xAA, ABIValue.int 50]).1 }
          (some 3) [Event.Pack "transfer" [ABIValue.address 0xAA, ABIValue.int 50]] :=
  (Transfer_token_builds_erc20_call 0 sampleWallet 0xAA 50 ⟨false, 0xBB⟩ (some 3) none []
    rfl rfl (fun h => nomatch h)).2.1

/-- C2: when the asset is absent or is the native asset, `Transfer` (once the
nonce is known) builds the transaction with the recipient as target, the amount as
value and empty call data, and hands exactly that transaction to `estimateAndSend`
and to gas estimation; whether or not the nonce is known, the call adds no call of
the ABI encoder to the log. -/
theorem Transfer_native_sends_value (ETH_ADDRESS : Address) (w : Wallet) (to_ : Address)
    (amount : Int) (token : Option Token) (nonce : Option Int) (feeToken : Option Token)
    (log : List Event)
    (htoken : token = none ∨ ∃ t, token = some t ∧ t.IsETH = true) :
    let tx : Transaction :=
      { From := w.es.GetAddress, To := to_, ErgsPrice := 0, ErgsLimit := 0, Value := amount,
        FeeToken := (feeToken.getD (CreateETH ETH_ADDRESS)).L2Address, Data := [] }
    let n : Option Int :=
      nonce.elim (w.zp.GetTransactionCount log w.es.GetAddress BlockNumberCommitted).1 some
    let log1 : List Event :=
      nonce.elim (log ++ [Event.GetTransactionCount w.es.GetAddress BlockNumberCommitted])
        (fun _ => log)
    ((nonce = none →
        (w.zp.GetTransactionCount log w.es.GetAddress BlockNumberCommitted).2 = none) →
      Wallet.Transfer.build ETH_ADDRESS w to_ amount token nonce feeToken log
          = (.ok (tx, n), log1) ∧
        Wallet.Transfer ETH_ADDRESS w to_ amount token nonce feeToken log
          = w.estimateAndSend tx n log1 ∧
        (Wallet.Transfer ETH_ADDRESS w to_ amount token nonce feeToken log).2.filter
            Event.isEstimateGas
          = log.filter Event.isEstimateGas ++ [Event.EstimateGas tx]) ∧
    (Wallet.Transfer ETH_ADDRESS w to_ amount token nonce feeToken log).2.filter Event.isPack
      = log.filter Event.isPack := by
  intro tx n log1
  have key : (nonce = none →
        (w.zp.GetTransactionCount log w.es.GetAddress BlockNumberCommitted).2 = none) →
      Wallet.Transfer.build ETH_ADDRESS w to_ amount token nonce feeToken log
          = (.ok (tx, n), log1) ∧
        Wallet.Transfer ETH_ADDRESS w to_ amount token nonce feeToken log
          = w.estimateAndSend tx n log1 := by
    intro hnonce
    have hb := build_native_ok ETH_ADDRESS w to_ amount token nonce feeToken log htoken hnonce
    exact ⟨hb, Transfer_of_build_ok _ _ _ _ _ _ _ _ _ _ _ hb⟩
  obtain ⟨rest, hrest, hr, hp, -, -⟩ := estimateAndSend_log w tx n log1
  refine ⟨fun hnonce => ⟨(key hnonce).1, (key hnonce).2, ?_⟩, ?_⟩
  · rw [(key hnonce).2, hrest]
    cases nonce <;>
      simp [log1, List.filter_append, List.filter_cons, hr, Event.isEstimateGas]
  · by_cases hnonce : nonce = none →
        (w.zp.GetTransactionCount log w.es.GetAddress BlockNumberCommitted).2 = none
    · rw [(key hnonce).2, hrest]
      cases nonce <;>
        simp [log1, List.filter_append, List.filter_cons, hp, Event.isPack]
    · have hn : nonce = none := by
        by_contra hne
        exact hnonce (fun h => absurd h hne)
      subst hn
      cases he : (w.zp.GetTransactionCount log w.es.GetAddress BlockNumberCommitted).2 with
      | none => exact absurd (fun _ => he) hnonce
      | some e =>
        rw [Transfer_of_build_error _ _ _ _ _ _ _ _ _ _
          (build_nonce_error ETH_ADDRESS w to_ amount token feeToken log e he)]
        simp [List.filter_append, Event.isPack]

/-- The witness of C2: the native transfer of the first scenario of section 8,
with the asset absent and the nonce taken from the provider. -/
theorem Transfer_native_sends_value_witness :
    Wallet.Transfer 0 sampleWallet 0xAA 100 none none none []
      = sampleWallet.estimateAndSend
          { From := 0x11, To := 0xAA, ErgsPrice := 0, ErgsLimit := 0, Value := 100,
            FeeToken := 0, Data := [] }
          (some 5) [Event.GetTransactionCount 0x11 BlockNumberCommitted] :=
  ((Transfer_native_sends_value 0 sampleWallet 0xAA 100 none none none []
    (Or.inl rfl)).1 (fun _ => rfl)).2.1

/-- C3: the signing function made by `newTransactorWithSigner` for a chain id that
is not nil, called with an address other than the signer's own, returns no
transaction and the not-authorized error, and leaves the log as it was: `SignHash`
is not called. -/
theorem newTransactorWithSigner_rejects_other_address
    (LatestSignerForChainID : Int → types.Signer) (w : Wallet) (ethSigner : EthSigner)
    (chainID : Int) (address : Address) (tx : types.Transaction) (log : List Event)
    (h : address ≠ ethSigner.GetAddress) :
    ∃ opts : bind.TransactOpts,
      w.newTransactorWithSigner LatestSignerForChainID ethSigner (some chainID)
        = (some opts, none) ∧
      opts.From = ethSigner.GetAddress ∧
      opts.Signer address tx log = ((none, some Error.ErrNotAuthorized), log) :=
  ⟨_, rfl, rfl, by simp [h]⟩

/-- The witness of C3: the signer has address `0x11` and the request names `0x22`. -/
theorem newTransactorWithSigner_rejects_other_address_witness :
    ∃ opts : bind.TransactOpts,
      sampleWallet.newTransactorWithSigner sampleLatestSigner sampleSigner (some 270)
        = (some opts, none) ∧
      opts.From = sampleSigner.GetAddress ∧
      opts.Signer 0x22 ⟨[1, 2], none⟩ [] = ((none, some Error.ErrNotAuthorized), []) :=
  newTransactorWithSigner_rejects_other_address sampleLatestSigner sampleWallet sampleSigner
    270 0x22 ⟨[1, 2], none⟩ [] (by decide)

/-- C4, at a provider whose first answer is an error next to a non-nil result:
`getBridgeContracts` fails, yet `w.bcs` holds that result afterwards; the next call
returns it as a success and leaves the log as it was, although a second query would
have answered with other contracts. -/
theorem getBridgeContracts_failure_is_cached :
    (failingWallet.getBridgeContracts []).1 = (none, some (Error.collaborator "rpc down")) ∧
    (failingWallet.getBridgeContracts []).2.1.bcs = some ⟨0, 0⟩ ∧
    (failingWallet.getBridgeContracts []).2.2 = [Event.ZksGetBridgeContracts] ∧
    ((failingWallet.getBridgeContracts []).2.1.getBridgeContracts
        [Event.ZksGetBridgeContracts]).1 = (some ⟨0, 0⟩, none) ∧
    ((failingWallet.getBridgeContracts []).2.1.getBridgeContracts
        [Event.ZksGetBridgeContracts]).2.2 = [Event.ZksGetBridgeContracts] ∧
    failingWallet.zp.ZksGetBridgeContracts [Event.ZksGetBridgeContracts]
      = (some ⟨0x10, 0x20⟩, none) := by
  refine ⟨rfl, rfl, rfl, rfl, rfl, rfl⟩

/-- C5: once `getBridgeContracts` has returned the contracts `b` without error,
the wallet holds `b`; after that every call returns `b` without error and leaves the
wallet and the log as they were, whatever the log says and whatever provider the
wallet then has, and so do `k` calls in a row for every `k`. -/
theorem getBridgeContracts_success_is_cached (w : Wallet) (log : List Event)
    (b : BridgeContracts) (h : (w.getBridgeContracts log).1 = (some b, none)) :
    (w.getBridgeContracts log).2.1.bcs = some b ∧
    (∀ (zp : Provider) (log1 : List Event),
      Wallet.getBridgeContracts { (w.getBridgeContracts log).2.1 with zp := zp } log1
        = ((some b, none), { (w.getBridgeContracts log).2.1 with zp := zp }, log1)) ∧
    (∀ (k : Nat) (log1 : List Event),
      Wallet.getBridgeContractsTimes k (w.getBridgeContracts log).2.1 log1
        = (List.replicate k (some b, none), (w.getBridgeContracts log).2.1, log1)) := by
  have hb : (w.getBridgeContracts log).2.1.bcs = some b := by
    unfold Wallet.getBridgeContracts at h ⊢
    cases hc : w.bcs with
    | some c =>
      simp only [hc] at h ⊢
      simpa using h
    | none =>
      simp only [hc] at h ⊢
      cases he : (w.zp.ZksGetBridgeContracts log).2 with
      | some e => simp [he] at h
      | none =>
        simp only [he] at h ⊢
        simpa using h
  have step : ∀ (w1 : Wallet), w1.bcs = some b → ∀ log1 : List Event,
      w1.getBridgeContracts log1 = ((some b, none), w1, log1) := by
    intro w1 h1 log1
    simp [Wallet.getBridgeContracts, h1]
  refine ⟨hb, fun zp log1 =>
    step { (w.getBridgeContracts log).2.1 with zp := zp } hb log1, ?_⟩
  intro k
  induction k with
  | zero => intro log1; rfl
  | succ k ih =>
    intro log1
    simp [Wallet.getBridgeContractsTimes, step _ hb log1, ih log1, List.replicate_succ]

/-- The witness of C5: the first call on the sample wallet asks the provider. -/
theorem getBridgeContracts_success_is_cached_witness :
    ((sampleWallet.getBridgeContracts []).2.1.bcs = some ⟨0x10, 0x20⟩) ∧
    (sampleWallet.getBridgeContracts []).2.2 = [Event.ZksGetBridgeContracts] ∧
    Wallet.getBridgeContractsTimes 3 (sampleWallet.getBridgeContracts []).2.1
        [Event.ZksGetBridgeContracts]
      = (List.replicate 3 (some ⟨0x10, 0x20⟩, none), (sampleWallet.getBridgeContracts []).2.1,
         [Event.ZksGetBridgeContracts]) :=
  ⟨(getBridgeContracts_success_is_cached sampleWallet [] ⟨0x10, 0x20⟩ rfl).1, rfl,
   (getBridgeContracts_success_is_cached sampleWallet [] ⟨0x10, 0x20⟩ rfl).2.2 3 _⟩

/-- C6, at a provider whose gas estimation succeeds: `estimateAndSend` returns
neither a transaction nor an error, and after the record of the call its log holds
the estimation, two prints and the domain query: no signature was asked for and
nothing was broadcast. -/
theorem estimateAndSend_returns_nil_and_sends_nothing :
    (sampleProvider.EstimateGas
        [Event.estimateAndSend ⟨0x11, 0xAA, 0, 0, 100, 0, []⟩ (some 5)]
        ⟨0x11, 0xAA, 0, 0, 100, 0, []⟩).2 = none ∧
    sampleWallet.estimateAndSend ⟨0x11, 0xAA, 0, 0, 100, 0, []⟩ (some 5) []
      = ((none, none),
         [Event.estimateAndSend ⟨0x11, 0xAA, 0, 0, 100, 0, []⟩ (some 5),
          Event.EstimateGas ⟨0x11, 0xAA, 0, 0, 100, 0, []⟩, Event.Println (some 21000),
          Event.GetDomain, Event.Println (some 270)]) ∧
    (sampleWallet.estimateAndSend ⟨0x11, 0xAA, 0, 0, 100, 0, []⟩ (some 5) []).2.filter
        Event.isSendRawTransaction = [] := by
  refine ⟨rfl, rfl, rfl⟩

/-- C7: when the provider's gas estimation fails with `e`, `estimateAndSend` returns
no transaction and an error, the record of the call and the estimation are the only
events it adds to the log (so the signer is asked for nothing and nothing is
broadcast), and a `Transfer` whose line 98 made this call returns the same. -/
theorem estimateAndSend_stops_on_estimate_error (w : Wallet) (tx : Transaction)
    (nonce : Option Int) (log : List Event) (e : Error)
    (h : (w.zp.EstimateGas (log ++ [Event.estimateAndSend tx nonce]) tx).2 = some e) :
    w.estimateAndSend tx nonce log
      = ((none, some (Error.Errorf "failed to EstimateGas: %w" e)),
         log ++ [Event.estimateAndSend tx nonce, Event.EstimateGas tx]) ∧
    (w.estimateAndSend tx nonce log).2.filter Event.isSignerCall
      = log.filter Event.isSignerCall ∧
    (w.estimateAndSend tx nonce log).2.filter Event.isSendRawTransaction
      = log.filter Event.isSendRawTransaction ∧
    (∀ (ETH_ADDRESS to_ : Address) (amount : Int) (token : Option Token) (n : Option Int)
        (feeToken : Option Token) (log0 : List Event),
      Wallet.Transfer.build ETH_ADDRESS w to_ amount token n feeToken log0
          = (.ok (tx, nonce), log) →
      Wallet.Transfer ETH_ADDRESS w to_ amount token n feeToken log0
        = ((none, some (Error.Errorf "failed to EstimateGas: %w" e)),
           log ++ [Event.estimateAndSend tx nonce, Event.EstimateGas tx])) := by
  have hs := estimateAndSend_of_estimate_error w tx nonce log e h
  refine ⟨hs, ?_, ?_, ?_⟩
  · rw [hs]
    simp [List.filter_append, Event.isSignerCall]
  · rw [hs]
    simp [List.filter_append, Event.isSendRawTransaction]
  · intro ETH_ADDRESS to_ amount token n feeToken log0 hb
    rw [Transfer_of_build_ok _ _ _ _ _ _ _ _ _ _ _ hb, hs]

/-- The witness of C7: a native transfer with a given nonce on a wallet whose
provider cannot estimate. -/
theorem estimateAndSend_stops_on_estimate_error_witness :
    Wallet.Transfer 0 failingWallet 0xAA 100 none (some 5) none []
      = ((none, some (Error.Errorf "failed to EstimateGas: %w" (Error.collaborator "rpc down"))),
         [Event.estimateAndSend ⟨0x11, 0xAA, 0, 0, 100, 0, []⟩ (some 5),
          Event.EstimateGas ⟨0x11, 0xAA, 0, 0, 100, 0, []⟩]) :=
  (estimateAndSend_stops_on_estimate_error failingWallet ⟨0x11, 0xAA, 0, 0, 100, 0, []⟩
    (some 5) [] (Error.collaborator "rpc down") rfl).2.2.2 0 0xAA 100 none (some 5) none [] rfl

/-- C8: with no nonce given, `Transfer` first asks the provider for the
transaction count of the signer's address at the committed tag; if that fails with
`e`, `Transfer` fails with the wrapped `e` and the query is the only event it adds
(nothing is encoded, estimated or passed to `estimateAndSend`); if it returns `k`,
`Transfer` goes on exactly as a call with nonce `k` does from the log that ends with
the query, and the one call of `estimateAndSend` it makes has nonce `k`. With a
nonce `k` given, the one call of `estimateAndSend` that `Transfer` makes has nonce
`k`, and `Transfer` adds no transaction-count query. -/
theorem Transfer_nonce_resolution (ETH_ADDRESS : Address) (w : Wallet) (to_ : Address)
    (amount : Int) (token : Option Token) (feeToken : Option Token) (log : List Event) :
    (∀ e : Error,
      (w.zp.GetTransactionCount log w.es.GetAddress BlockNumberCommitted).2 = some e →
      Wallet.Transfer ETH_ADDRESS w to_ amount token none feeToken log
        = ((none, some (Error.Errorf "failed to get nonce: %w" e)),
           log ++ [Event.GetTransactionCount w.es.GetAddress BlockNumberCommitted])) ∧
    (∀ k : Int,
      w.zp.GetTransactionCount log w.es.GetAddress BlockNumberCommitted = (some k, none) →
      Wallet.Transfer.build ETH_ADDRESS w to_ amount token none feeToken log
          = Wallet.Transfer.build ETH_ADDRESS w to_ amount token (some k) feeToken
              (log ++ [Event.GetTransactionCount w.es.GetAddress BlockNumberCommitted]) ∧
        Wallet.Transfer ETH_ADDRESS w to_ amount token none feeToken log
          = Wallet.Transfer ETH_ADDRESS w to_ amount token (some k) feeToken
              (log ++ [Event.GetTransactionCount w.es.GetAddress BlockNumberCommitted])) ∧
    (∀ (k : Int) (tx : Transaction) (n : Option Int) (log1 : List Event),
      Wallet.Transfer.build ETH_ADDRESS w to_ amount token (some k) feeToken log
          = (.ok (tx, n), log1) →
      n = some k ∧
        Wallet.Transfer ETH_ADDRESS w to_ amount token (some k) feeToken log
          = w.estimateAndSend tx (some k) log1) ∧
    (∀ k : Int,
      (Wallet.Transfer ETH_ADDRESS w to_ amount token (some k) feeToken log).2.filter
          Event.isGetTransactionCount
        = log.filter Event.isGetTransactionCount) ∧
    (∀ (k : Int) (tx : Transaction) (n : Option Int) (log1 : List Event),
      Wallet.Transfer.build ETH_ADDRESS w to_ amount token (some k) feeToken log
          = (.ok (tx, n), log1) →
      (Wallet.Transfer ETH_ADDRESS w to_ amount token (some k) feeToken log).2.filter
          Event.isEstimateAndSend
        = log.filter Event.isEstimateAndSend ++ [Event.estimateAndSend tx (some k)]) ∧
    (∀ (k : Int) (tx : Transaction) (n : Option Int) (log1 : List Event),
      w.zp.GetTransactionCount log w.es.GetAddress BlockNumberCommitted = (some k, none) →
      Wallet.Transfer.build ETH_ADDRESS w to_ amount token none feeToken log
          = (.ok (tx, n), log1) →
      (Wallet.Transfer ETH_ADDRESS w to_ amount token none feeToken log).2.filter
          Event.isEstimateAndSend
        = log.filter Event.isEstimateAndSend ++ [Event.estimateAndSend tx (some k)]) := by
  have present : ∀ (k : Int) (tx : Transaction) (n : Option Int) (log0 log1 : List Event),
      Wallet.Transfer.build ETH_ADDRESS w to_ amount token (some k) feeToken log0
          = (.ok (tx, n), log1) →
      n = some k ∧
        Wallet.Transfer ETH_ADDRESS w to_ amount token (some k) feeToken log0
          = w.estimateAndSend tx (some k) log1 ∧
        (Wallet.Transfer ETH_ADDRESS w to_ amount token (some k) feeToken log0).2.filter
            Event.isEstimateAndSend
          = log0.filter Event.isEstimateAndSend ++ [Event.estimateAndSend tx (some k)] := by
    intro k tx n log0 log1 hb
    have hn : n = some k := by
      unfold Wallet.Transfer.build at hb
      simp only at hb
      split at hb
      · split at hb
        · cases hb
        · cases hb
          rfl
      · cases hb
        rfl
    subst hn
    have ht := Transfer_of_build_ok _ _ _ _ _ _ _ _ _ _ _ hb
    refine ⟨rfl, ht, ?_⟩
    have hlog := build_log_of_nonce ETH_ADDRESS w to_ amount token k feeToken log0
    rw [hb] at hlog
    obtain ⟨rest, hrest, -, -, -, hc⟩ := estimateAndSend_log w tx (some k) log1
    rw [ht, hrest]
    rcases hlog with h1 | h1 <;>
      simp at h1 <;> subst h1 <;>
      simp [List.filter_append, List.filter_cons, hc, Event.isEstimateAndSend]
  have absent : ∀ k : Int,
      w.zp.GetTransactionCount log w.es.GetAddress BlockNumberCommitted = (some k, none) →
      Wallet.Transfer.build ETH_ADDRESS w to_ amount token none feeToken log
          = Wallet.Transfer.build ETH_ADDRESS w to_ amount token (some k) feeToken
              (log ++ [Event.GetTransactionCount w.es.GetAddress BlockNumberCommitted]) ∧
        Wallet.Transfer ETH_ADDRESS w to_ amount token none feeToken log
          = Wallet.Transfer ETH_ADDRESS w to_ amount token (some k) feeToken
              (log ++ [Event.GetTransactionCount w.es.GetAddress BlockNumberCommitted]) := by
    intro k hk
    have hb : Wallet.Transfer.build ETH_ADDRESS w to_ amount token none feeToken log
        = Wallet.Transfer.build ETH_ADDRESS w to_ amount token (some k) feeToken
            (log ++ [Event.GetTransactionCount w.es.GetAddress BlockNumberCommitted]) := by
      simp [Wallet.Transfer.build, Wallet.GetNonce, hk]
    exact ⟨hb, by simp only [Wallet.Transfer, hb]⟩
  refine ⟨?_, absent, ?_, ?_, ?_, ?_⟩
  · intro e he
    exact Transfer_of_build_error _ _ _ _ _ _ _ _ _ _
      (build_nonce_error ETH_ADDRESS w to_ amount token feeToken log e he)
  · intro k tx n log1 hb
    exact ⟨(present k tx n log log1 hb).1, (present k tx n log log1 hb).2.1⟩
  · intro k
    have hlog := build_log_of_nonce ETH_ADDRESS w to_ amount token k feeToken log
    cases hb : Wallet.Transfer.build ETH_ADDRESS w to_ amount token (some k) feeToken log with
    | mk r log1 =>
      rw [hb] at hlog
      cases r with
      | error e =>
        rw [Transfer_of_build_error _ _ _ _ _ _ _ _ _ _ hb]
        rcases hlog with h1 | h1 <;>
          simp at h1 <;> subst h1 <;>
          simp [List.filter_append, Event.isGetTransactionCount]
      | ok v =>
        obtain ⟨tx, n⟩ := v
        rw [Transfer_of_build_ok _ _ _ _ _ _ _ _ _ _ _ hb]
        obtain ⟨rest, hrest, -, -, hg, -⟩ := estimateAndSend_log w tx n log1
        rw [hrest]
        rcases hlog with h1 | h1 <;>
          simp at h1 <;> subst h1 <;>
          simp [List.filter_append, List.filter_cons, hg, Event.isGetTransactionCount]
  · intro k tx n log1 hb
    exact (present k tx n log log1 hb).2.2
  · intro k tx n log1 hk hb
    rw [(absent k hk).1] at hb
    rw [(absent k hk).2, (present k tx n _ log1 hb).2.2]
    simp [List.filter_append, Event.isEstimateAndSend]

/-- The witness of C8: the provider of the sample wallet counts 5 transactions, and
the call of `estimateAndSend` is made with nonce 5. -/
theorem Transfer_nonce_resolution_witness :
    Wallet.Transfer 0 sampleWallet 0xAA 100 none none none []
        = Wallet.Transfer 0 sampleWallet 0xAA 100 none (some 5) none
            ([] ++ [Event.GetTransactionCount sampleWallet.es.GetAddress
              BlockNumberCommitted]) ∧
    (Wallet.Transfer 0 sampleWallet 0xAA 100 none none none []).2.filter
        Event.isEstimateAndSend
      = List.filter Event.isEstimateAndSend [] ++
          [Event.estimateAndSend ⟨0x11, 0xAA, 0, 0, 100, 0, []⟩ (some 5)] ∧
    (Wallet.Transfer 0 sampleWallet 0xAA 100 none (some 7) none []).2.filter
        Event.isEstimateAndSend
      = List.filter Event.isEstimateAndSend [] ++
          [Event.estimateAndSend ⟨0x11, 0xAA, 0, 0, 100, 0, []⟩ (some 7)] :=
  ⟨((Transfer_nonce_resolution 0 sampleWallet 0xAA 100 none none []).2.1 5 rfl).2,
   (Transfer_nonce_resolution 0 sampleWallet 0xAA 100 none none []).2.2.2.2.2
     5 ⟨0x11, 0xAA, 0, 0, 100, 0, []⟩ (some 5)
     [Event.GetTransactionCount 0x11 BlockNumberCommitted] rfl rfl,
   (Transfer_nonce_resolution 0 sampleWallet 0xAA 100 none none []).2.2.2.2.1
     7 ⟨0x11, 0xAA, 0, 0, 100, 0, []⟩ (some 7) [] rfl⟩

/-- C9: every transaction `Transfer` builds has as fee-token address the L2 address
of the given fee token, or of the native asset when none is given; so two calls that
differ only in the asset build transactions with the same fee-token address; and a
native transfer with any fee token `f` keeps `f`'s address while its target, value
and call data are the recipient, the amount and no data. -/
theorem Transfer_fee_token_independent_of_asset (ETH_ADDRESS : Address) (w : Wallet)
    (to_ : Address) (amount : Int) (nonce : Option Int) (feeToken : Option Token)
    (log : List Event) :
    (∀ (token : Option Token) (tx : Transaction) (n : Option Int) (log1 : List Event),
      Wallet.Transfer.build ETH_ADDRESS w to_ amount token nonce feeToken log
          = (.ok (tx, n), log1) →
      tx.FeeToken = (feeToken.getD (CreateETH ETH_ADDRESS)).L2Address ∧
        Wallet.Transfer ETH_ADDRESS w to_ amount token nonce feeToken log
          = w.estimateAndSend tx n log1) ∧
    (∀ (token1 token2 : Option Token) (tx1 tx2 : Transaction) (n1 n2 : Option Int)
        (log1 log2 : List Event),
      Wallet.Transfer.build ETH_ADDRESS w to_ amount token1 nonce feeToken log
          = (.ok (tx1, n1), log1) →
      Wallet.Transfer.build ETH_ADDRESS w to_ amount token2 nonce feeToken log
          = (.ok (tx2, n2), log2) →
      tx1.FeeToken = tx2.FeeToken) ∧
    (∀ (token : Option Token) (f : Token),
      (token = none ∨ ∃ t, token = some t ∧ t.IsETH = true) →
      (nonce = none →
        (w.zp.GetTransactionCount log w.es.GetAddress BlockNumberCommitted).2 = none) →
      ∃ (n : Option Int) (log1 : List Event),
        Wallet.Transfer.build ETH_ADDRESS w to_ amount token nonce (some f) log
          = (.ok ({ From := w.es.GetAddress, To := to_, ErgsPrice := 0, ErgsLimit := 0,
                    Value := amount, FeeToken := f.L2Address, Data := [] }, n), log1)) := by
  refine ⟨?_, ?_, ?_⟩
  · intro token tx n log1 hb
    exact ⟨build_fee_token _ _ _ _ _ _ _ _ _ _ _ hb,
      Transfer_of_build_ok _ _ _ _ _ _ _ _ _ _ _ hb⟩
  · intro token1 token2 tx1 tx2 n1 n2 log1 log2 h1 h2
    rw [build_fee_token _ _ _ _ _ _ _ _ _ _ _ h1, build_fee_token _ _ _ _ _ _ _ _ _ _ _ h2]
  · intro token f htoken hnonce
    exact ⟨_, _,
      build_native_ok ETH_ADDRESS w to_ amount token nonce (some f) log htoken hnonce⟩

/-- The witness of C9: a native transfer and a token transfer, both paying the fee in
the token at `0xFE`, build transactions with the same fee-token address, and the
native one is a plain value transfer. -/
theorem Transfer_fee_token_independent_of_asset_witness :
    (⟨0x11, 0xAA, 0, 0, 100, 0xFE, []⟩ : Transaction).FeeToken
        = (⟨0x11, 0xBB, 0, 0, 0, 0xFE, [8, 0xAA, 100]⟩ : Transaction).FeeToken ∧
    ∃ (n : Option Int) (log1 : List Event),
      Wallet.Transfer.build 0 sampleWallet 0xAA 100 none (some 3) (some ⟨false, 0xFE⟩) []
        = (.ok ({ From := sampleWallet.es.GetAddress, To := 0xAA, ErgsPrice := 0,
                  ErgsLimit := 0, Value := 100, FeeToken := 0xFE, Data := [] }, n), log1) :=
  ⟨(Transfer_fee_token_independent_of_asset 0 sampleWallet 0xAA 100 (some 3)
      (some ⟨false, 0xFE⟩) []).2.1 none (some ⟨false, 0xBB⟩)
      ⟨0x11, 0xAA, 0, 0, 100, 0xFE, []⟩ ⟨0x11, 0xBB, 0, 0, 0, 0xFE, [8, 0xAA, 100]⟩
      (some 3) (some 3) [] [Event.Pack "transfer" [ABIValue.address 0xAA, ABIValue.int 100]]
      rfl rfl,
   (Transfer_fee_token_independent_of_asset 0 sampleWallet 0xAA 100 (some 3)
      (some ⟨false, 0xFE⟩) []).2.2 none ⟨false, 0xFE⟩ (Or.inl rfl) (fun h => nomatch h)⟩

/-- C10 as stated fails for `GetBalance`: at a provider that fails with `e`, the
error `GetBalance` returns is `e` itself, and no wrapping of `e`. -/
theorem GetBalance_returns_bare_provider_error :
    (failingWallet.zp.GetBalance [] failingWallet.es.GetAddress BlockNumberCommitted
        (CreateETH 0)).2 = some (Error.collaborator "rpc down") ∧
    (Wallet.GetBalance 0 failingWallet []).1.2 = some (Error.collaborator "rpc down") ∧
    ∀ format : String, (Wallet.GetBalance 0 failingWallet []).1.2
      ≠ some (Error.Errorf format (Error.collaborator "rpc down")) := by
  refine ⟨rfl, rfl, ?_⟩
  intro format h
  cases h

/-- C10, amended: `GetBalance` and `GetNonce` return the provider's pair as it is;
`Transfer` wraps: a transaction-count failure `e` comes out under
"failed to get nonce", a gas-estimation failure `e` under "failed to EstimateGas",
in both cases with no transaction and with an error other than `e`. -/
theorem Transfer_wraps_provider_errors (ETH_ADDRESS : Address) (w : Wallet)
    (log : List Event) (e : Error) :
    (Wallet.GetBalance ETH_ADDRESS w log).1
      = w.zp.GetBalance log w.es.GetAddress BlockNumberCommitted (CreateETH ETH_ADDRESS) ∧
    (w.GetNonce log).1 = w.zp.GetTransactionCount log w.es.GetAddress BlockNumberCommitted ∧
    (∀ (to_ : Address) (amount : Int) (token feeToken : Option Token),
      (w.zp.GetTransactionCount log w.es.GetAddress BlockNumberCommitted).2 = some e →
      (Wallet.Transfer ETH_ADDRESS w to_ amount token none feeToken log).1
          = (none, some (Error.Errorf "failed to get nonce: %w" e)) ∧
        Error.Errorf "failed to get nonce: %w" e ≠ e) ∧
    (∀ (to_ : Address) (amount : Int) (token : Option Token) (nonce : Option Int)
        (feeToken : Option Token) (tx : Transaction) (n : Option Int) (log1 : List Event),
      Wallet.Transfer.build ETH_ADDRESS w to_ amount token nonce feeToken log
          = (.ok (tx, n), log1) →
      (w.zp.EstimateGas (log1 ++ [Event.estimateAndSend tx n]) tx).2 = some e →
      (Wallet.Transfer ETH_ADDRESS w to_ amount token nonce feeToken log).1
          = (none, some (Error.Errorf "failed to EstimateGas: %w" e)) ∧
        Error.Errorf "failed to EstimateGas: %w" e ≠ e) := by
  refine ⟨rfl, rfl, ?_, ?_⟩
  · intro to_ amount token feeToken he
    rw [Transfer_of_build_error _ _ _ _ _ _ _ _ _ _
      (build_nonce_error ETH_ADDRESS w to_ amount token feeToken log e he)]
    exact ⟨rfl, Error.Errorf_ne_cause _ _⟩
  · intro to_ amount token nonce feeToken tx n log1 hb he
    rw [Transfer_of_build_ok _ _ _ _ _ _ _ _ _ _ _ hb,
      estimateAndSend_of_estimate_error w tx n log1 e he]
    exact ⟨rfl, Error.Errorf_ne_cause _ _⟩

/-- The witness of the amended C10: a transfer without nonce on a wallet whose
provider fails. -/
theorem Transfer_wraps_provider_errors_witness :
    (Wallet.Transfer 0 failingWallet 0xAA 100 none none none []).1
      = (none, some (Error.Errorf "failed to get nonce: %w" (Error.collaborator "rpc down"))) :=
  ((Transfer_wraps_provider_errors 0 failingWallet [] (Error.collaborator "rpc down")).2.2.1
    0xAA 100 none none rfl).1

end Zksync2
